import Mathlib

/-
Verification of the song-suggestion microservice (src/main.py) against its
natural-language specification.  The pipeline of `combine_suggestions`
(two-tier cache lookup, per-seed provider fetch with first-occurrence-wins
id dedup, stable descending sort by score, normalized-title dedup, top-5
truncation, popular-chart fallback, cache write-through) is embedded as
executable Lean functions.  External effects (YouTube HTTP calls, Redis,
`random.choice`, wall-clock time) are passed in as explicit parameters:
`provider` models `get_youtube_suggestions` per seed, `fallbackFetch`
models the outcome of the fallback catalog HTTP request, `pick` models the
random draw of `random.choice`, `now` models `time.time()`, and `SvcState`
carries both cache tiers plus counters of outbound fetch invocations.
Machine floats are modelled by `ℚ` (all constants involved are exact
decimals, and the score comparisons in the claims are order-theoretic).
-/

namespace SongSuggest

/-- A suggestion dict as built by src/main.py: keys title, artist,
youtube_video_id, score. -/
structure Sug where
  title : String
  artist : String
  youtube_video_id : String
  score : ℚ
deriving DecidableEq, Repr

/-- An item of the fallback catalog response (`items` in
`get_popular_song_fallback`): snippet.title, snippet.channelTitle, id, and
the optional statistics.viewCount field. -/
structure FItem where
  title : String
  channelTitle : String
  id : String
  viewCount : Option Nat
deriving DecidableEq, Repr

/-- Models `random.choice l` by an externally supplied draw `k`: the element
at index `k % l.length` (defined for every nonempty list, `none` on `[]`). -/
def chooseAt (k : Nat) (l : List FItem) : Option FItem :=
  l[k % l.length]?

/-- The filter predicate of main.py:172-175: the viewCount key is present
in statistics and its integer value exceeds 100000000. -/
def hasHighViews (it : FItem) : Bool :=
  match it.viewCount with
  | some v => decide (100000000 < v)
  | none => false

/-- The suggestion dict built at main.py:182-187 and 194-199: base score 1.0. -/
def fallbackSug (song : FItem) : Sug :=
  ⟨song.title, song.channelTitle, song.id, 1⟩

/-- Embedding of `get_popular_song_fallback` (main.py:148-206).
`fetched = none` models a network error or non-200 status (both return None);
`fetched = some items` models a 200 response with the given item list. -/
def get_popular_song_fallback (fetched : Option (List FItem)) (k : Nat) :
    Option (List Sug) :=
  match fetched with
  | none => none
  | some items =>
    if items.isEmpty then none
    else
      let popular := items.filter hasHighViews
      if popular.isEmpty then
        match chooseAt k items with
        | some song => some [fallbackSug song]
        | none => none
      else
        match chooseAt k popular with
        | some song => some [fallbackSug song]
        | none => none

/-- Association-list read modelling a Python dict lookup (first binding wins;
writes prepend, so the most recent binding is found). -/
def lget {α : Type} : List (String × α) → String → Option α
  | [], _ => none
  | (k1, v) :: rest, k => if k1 = k then some v else lget rest k

/-- Removal of a key, modelling `dict.pop(key, None)`. -/
def lerase {α : Type} (c : List (String × α)) (k : String) : List (String × α) :=
  c.filter (fun p => p.1 ≠ k)

/-- Tier-1 cache: fingerprint ↦ (timestamp, suggestion list), modelling
`_suggestion_cache`. -/
abbrev LocalCache := List (String × (ℚ × List Sug))

/-- Tier-2 (Redis) cache contents, modelling the keys `suggestions:<fp>`.
Entries present are modelled as unexpired (Redis expires them server-side). -/
abbrev RedisCache := List (String × List Sug)

/-- main.py:99 `CACHE_TTL = 3600`. -/
def CACHE_TTL : ℚ := 3600

/-- Embedding of `_cache_get` (main.py:104-113): returns the cached list if
present and fresh; lazily evicts (pops) an expired entry.  Returns the value
read together with the possibly-updated cache. -/
def cache_get (now : ℚ) (c : LocalCache) (key : String) :
    Option (List Sug) × LocalCache :=
  match lget c key with
  | none => (none, c)
  | some (ts, data) =>
    if CACHE_TTL < now - ts then (none, lerase c key) else (some data, c)

/-- Embedding of `_cache_set` (main.py:115-116). -/
def cache_set (now : ℚ) (c : LocalCache) (key : String) (v : List Sug) :
    LocalCache :=
  (key, (now, v)) :: c

/-- Python `str.lower` on the character list (ASCII case mapping, the
behaviour of `.lower()` on the ASCII strings this service handles).
Implemented on `List Char` so that the kernel can evaluate it. -/
def strLower (s : String) : String :=
  String.mk (s.toList.map Char.toLower)

/-- Python `str.strip()`: drop leading and trailing whitespace.
Implemented on `List Char` so that the kernel can evaluate it. -/
def strTrim (s : String) : String :=
  String.mk
    (((s.toList.dropWhile Char.isWhitespace).reverse.dropWhile
        Char.isWhitespace).reverse)

/-- Seed normalisation at main.py:369: lower-case then strip. -/
def normSeed (s : String) : String := strTrim (strLower s)

/-- The cache fingerprint of main.py:369:
`"|".join(sorted([s.lower().strip() for s in song_names]))`.
`List.insertionSort` with `≤` computes the same list as Python `sorted`
(both are stable, and on equal strings any sorted permutation coincides). -/
def cache_key (song_names : List String) : String :=
  String.intercalate "|"
    (List.insertionSort (fun a b : String => a ≤ b) (song_names.map normSeed))

/-- First-occurrence-wins deduplication keyed by `key`, threading the set of
already-seen keys, as in main.py:383-391 (`video_id_set`) and
main.py:402-408 (`seen_titles`). -/
def dedupBy (key : Sug → String) : List Sug → List String → List Sug
  | [], _ => []
  | x :: xs, seen =>
    if key x ∈ seen then dedupBy key xs seen
    else x :: dedupBy key xs (key x :: seen)

/-- The comparator realised by Python
`sorted(l, key=lambda x: x["score"], reverse=True)`: a goes before b when
the score of b is at most the score of a (CPython sort is stable and
`reverse=True` preserves stability, so ties keep input order: the earlier
element may stay in front exactly when its score is at least that of the
later element). -/
def scoreGe (a b : Sug) : Prop := b.score ≤ a.score

instance : DecidableRel scoreGe :=
  fun a b => inferInstanceAs (Decidable (b.score ≤ a.score))

instance : IsTotal Sug scoreGe :=
  ⟨fun a b => le_total b.score a.score⟩

instance : IsTrans Sug scoreGe :=
  ⟨fun _ _ _ hab hbc => le_trans hbc hab⟩

/-- The stable descending-by-score sort of main.py:401 (and main.py:353). -/
def sortDesc (l : List Sug) : List Sug := List.insertionSort scoreGe l

/-- The merge loop of main.py:383-391: per-seed provider results (None and
empty are both skipped by `if suggestions:`) concatenated in input order
with first-occurrence-wins dedup on youtube_video_id. -/
def all_suggestions (provider : String → Option (List Sug))
    (names : List String) : List Sug :=
  dedupBy (fun s => s.youtube_video_id)
    ((names.map (fun n => (provider n).getD [])).flatten) []

/-- main.py:400-410: stable descending sort, first-seen dedup on the
lower-cased title, truncation to the top 5. -/
def rank_result (merged : List Sug) : List Sug :=
  (dedupBy (fun s => strLower s.title) (sortDesc merged) []).take 5

/-- Service state threaded through `combine_suggestions`: both cache tiers
plus counters of outbound fetch invocations (`seedCalls` counts invocations
of `get_youtube_suggestions`, one per seed per pipeline run;
`fallbackFetches` counts executions of the fallback catalog HTTP request). -/
structure SvcState where
  localCache : LocalCache
  redisCache : RedisCache
  seedCalls : Nat
  fallbackFetches : Nat
deriving DecidableEq, Repr

/-- main.py:410-416: store the ranked result in Tier 1 unconditionally and
in Redis when configured, then return it. -/
def finish (redisOn : Bool) (now : ℚ) (key : String) (merged : List Sug)
    (st : SvcState) : List Sug × SvcState :=
  let result := rank_result merged
  (result,
    { st with
      localCache := cache_set now st.localCache key result,
      redisCache := if redisOn then (key, result) :: st.redisCache
                    else st.redisCache })

/-- main.py:383-417 after the cache checks: fetch per seed, merge, and either
return the fallback directly (main.py:394-398, note: without any cache
write) or rank, cache and return. -/
def run_pipeline (redisOn : Bool) (provider : String → Option (List Sug))
    (fallbackFetch : Option (List FItem)) (pick : Nat) (now : ℚ)
    (key : String) (names : List String) (st : SvcState) :
    List Sug × SvcState :=
  let merged := all_suggestions provider names
  let st1 : SvcState := { st with seedCalls := st.seedCalls + names.length }
  if merged.isEmpty then
    let st2 : SvcState := { st1 with fallbackFetches := st1.fallbackFetches + 1 }
    match get_popular_song_fallback fallbackFetch pick with
    | some (f :: fs) => (f :: fs, st2)
    | _ => finish redisOn now key merged st2
  else finish redisOn now key merged st1

/-- Embedding of `combine_suggestions` (main.py:363-417): compute the
fingerprint, check Redis (when configured), then the in-process cache (which
may lazily evict an expired entry), and on a miss run the pipeline.
A Redis value of an empty list is returned as-is (the JSON string of an
empty list is truthy in Python, so `if val:` accepts it). -/
def combine_suggestions (redisOn : Bool)
    (provider : String → Option (List Sug))
    (fallbackFetch : Option (List FItem)) (pick : Nat) (now : ℚ)
    (song_names : List String) (st : SvcState) : List Sug × SvcState :=
  let key := cache_key song_names
  match (if redisOn then lget st.redisCache key else none) with
  | some v => (v, st)
  | none =>
    match cache_get now st.localCache key with
    | (some v, c1) => (v, { st with localCache := c1 })
    | (none, c1) =>
      run_pipeline redisOn provider fallbackFetch pick now key song_names
        { st with localCache := c1 }

/-- Substring test, modelling Python `pat in s`. -/
def strContains (s pat : String) : Bool :=
  decide (pat.toList <:+: s.toList)

/-- The seed normalisation of main.py:216: re.sub removes every character
that is neither a word character (ASCII reading: alphanumeric or
underscore) nor whitespace, then lower-case, then strip. -/
def py_normalize (s : String) : String :=
  strTrim (strLower (String.mk (s.toList.filter
    (fun c => c.isAlphanum || c = '_' || c.isWhitespace))))

/-- The heuristic base score of main.py:322-331, computed from the
(lower-cased) candidate title and channel, the (lower-cased) original
seed-video title and channel, and the candidate view count. -/
def base_score (title channel original_title original_channel : String)
    (video_views : Nat) : ℚ :=
  1 + (if strContains title "official video"
          || strContains title "official music video" then 0.8 else 0)
    + (if ((original_title.split Char.isWhitespace).filter
            (fun w => w ≠ "")).any (fun w => strContains title w)
       then 0.5 else 0)
    + (if channel = original_channel then 0.4 else 0)
    + (if 100000 < video_views
       then 0.3 * ((video_views : ℚ) / 1000000) else 0)

/-- main.py:344,349: `total_score = base + 1.5 * sim`, capped
`min(total_score, 4.0)`. -/
def total_score (base sim : ℚ) : ℚ := min (base + 1.5 * sim) 4

/-- A tuple of `candidate_objects` (main.py:334):
(videoId, raw title, raw channelTitle, heuristic base score). -/
structure CandObj where
  vid : String
  title_raw : String
  channel_raw : String
  base : ℚ
deriving DecidableEq, Repr

/-- The suggestion dict built at main.py:345-350. -/
def mkSug (c : CandObj) (sim : ℚ) : Sug :=
  ⟨c.title_raw, c.channel_raw, c.vid, total_score c.base sim⟩

/-- Python exception classes arising in the embedded paths:
`requests.exceptions.RequestException` (caught at main.py:356) versus any
other exception — the sklearn `ValueError` on a degenerate vocabulary
(uncaught in `get_youtube_suggestions`: the only other handler is dead code
after the unconditional `return None` at main.py:358; lines 359-360 are
unreachable) and the `TypeError` raised by iterating a non-iterable object
(main.py:119). -/
inductive PyErr
  | requestException (msg : String)
  | valueError (msg : String)
  | typeError (msg : String)
deriving DecidableEq, Repr

/-- Embedding of the tail of `get_youtube_suggestions` (main.py:336-360):
given the surviving `candidate_objects` and the outcome of the TF-IDF
similarity computation (main.py:339-341, which may raise), produce either
`Except.ok` of the return value of the function (`none` models Python
`None`) or
`Except.error` of an exception that escapes the function.  Only
`RequestException` is caught and turned into `None`; every other exception
propagates to the caller. -/
def score_pass (candidate_objects : List CandObj)
    (sims : Except PyErr (List ℚ)) : Except PyErr (Option (List Sug)) :=
  if candidate_objects.isEmpty then Except.ok none
  else
    match sims with
    | Except.error (PyErr.requestException _) => Except.ok none
    | Except.error e => Except.error e
    | Except.ok ss =>
      Except.ok (some
        ((sortDesc (List.zipWith mkSug candidate_objects ss)).take 10))

/-- A stored `user_liked_songs` row for one user: a synthetic row identity
(autoincrement primary key) and the song name. -/
structure Row where
  rid : Nat
  song_name : String
deriving DecidableEq, Repr

/-- A row-level write issued against the database. -/
inductive DbOp
  | insertOp (song : String)
  | deleteOp (song : String)
deriving DecidableEq, Repr

def DbOp.isInsert : DbOp → Bool
  | DbOp.insertOp _ => true
  | DbOp.deleteOp _ => false

def DbOp.isDelete : DbOp → Bool
  | DbOp.insertOp _ => false
  | DbOp.deleteOp _ => true

/-- The stored likes of one user plus the next autoincrement row id. -/
structure UserStore where
  rows : List Row
  nextId : Nat
deriving DecidableEq, Repr

/-- Fresh rows for the inserted songs, with consecutive new row ids. -/
def insertRows (songs : List String) (nid : Nat) : List Row :=
  match songs with
  | [] => []
  | s :: rest => ⟨nid, s⟩ :: insertRows rest (nid + 1)

/-- The per-session body of the loop in `_persist_user_likes_write_through`
(main.py:120-134), applied to one store:
`db.query(UserLikedSong).filter_by(user_id=...).delete()` removes every
existing row of the user, then one row per song in the request is added.
Returns the new store contents together with the list of row-level
operations issued, deletes first.  In the program this body is unreachable
(see `persist_user_likes`). -/
def persist_write_body (store : UserStore) (songs : List String) :
    UserStore × List DbOp :=
  (⟨insertRows songs store.nextId, store.nextId + songs.length⟩,
    store.rows.map (fun r => DbOp.deleteOp r.song_name)
      ++ songs.map DbOp.insertOp)

/-- A Python value in the position of `for db in get_write_sessions():`
(main.py:119): either an iterable list of database sessions, or the
non-iterable _GeneratorContextManager wrapper object that a bare call to a
function decorated with `@contextmanager` returns. -/
inductive WriteSessionsValue
  | sessionList (dbs : List Unit)
  | generatorContextManager
deriving DecidableEq, Repr

/-- db.py:103-114: `get_write_sessions` is decorated with `@contextmanager`
and is called bare (not through a `with` statement) at main.py:119, so the
call expression evaluates to the wrapper object, not to the session list
the generator body would build. -/
def get_write_sessions : WriteSessionsValue :=
  WriteSessionsValue.generatorContextManager

/-- Iterating a Python value: a list iterates to its elements; the
_GeneratorContextManager wrapper implements only enter/exit, not the
iteration protocol, so a `for` statement over it raises TypeError. -/
def pyIterate : WriteSessionsValue → Except PyErr (List Unit)
  | WriteSessionsValue.sessionList dbs => Except.ok dbs
  | WriteSessionsValue.generatorContextManager =>
      Except.error (PyErr.typeError "object is not iterable")

/-- Embedding of `_persist_user_likes_write_through` (main.py:118-134):
the function iterates the value of the bare call `get_write_sessions()`.
Because that value is the non-iterable wrapper, the `for` statement raises
TypeError before the loop body ever runs; the try/except sits inside the
body, so nothing catches the exception and it escapes to the caller with
no row operation issued.  Were an iterable of sessions supplied instead,
the body (`persist_write_body`) would run once per session. -/
def persist_user_likes (store : UserStore) (songs : List String) :
    Except PyErr (UserStore × List DbOp) :=
  match pyIterate get_write_sessions with
  | Except.error e => Except.error e
  | Except.ok dbs =>
      Except.ok (dbs.foldl
        (fun acc _ =>
          ((persist_write_body acc.1 songs).1,
            acc.2 ++ (persist_write_body acc.1 songs).2))
        (store, []))

/-- The dedup invariant of the spec: within one result, youtube video ids
are pairwise distinct and lower-cased titles are pairwise distinct. -/
def DedupOk (l : List Sug) : Prop :=
  (l.map (fun s => s.youtube_video_id)).Nodup
    ∧ (l.map (fun s => strLower s.title)).Nodup

instance (l : List Sug) : Decidable (DedupOk l) :=
  inferInstanceAs (Decidable (_ ∧ _))

/-- Every value stored in either cache tier satisfies the dedup invariant. -/
def CacheDedupOk (st : SvcState) : Prop :=
  (∀ p ∈ st.localCache, DedupOk p.2.2) ∧ (∀ p ∈ st.redisCache, DedupOk p.2)

/-- Every value stored in either cache tier has length at most 5. -/
def CacheLenOk (st : SvcState) : Prop :=
  (∀ p ∈ st.localCache, p.2.2.length ≤ 5)
    ∧ (∀ p ∈ st.redisCache, p.2.length ≤ 5)

/-! Helper lemmas about the association-list caches. -/

lemma lget_mem {α : Type} : ∀ {c : List (String × α)} {k : String} {v : α},
    lget c k = some v → (k, v) ∈ c
  | [], _, _, h => by simp [lget] at h
  | (k1, v1) :: rest, k, v, h => by
    simp only [lget] at h
    by_cases hk : k1 = k
    · rw [if_pos hk] at h
      injection h with h
      subst hk
      subst h
      exact List.mem_cons_self _ _
    · rw [if_neg hk] at h
      exact List.mem_cons_of_mem _ (lget_mem h)

lemma lget_cons_self {α : Type} (c : List (String × α)) (k : String) (v : α) :
    lget ((k, v) :: c) k = some v := by simp [lget]

lemma mem_lerase {α : Type} {c : List (String × α)} {k : String}
    {p : String × α} (h : p ∈ lerase c k) : p ∈ c :=
  (List.mem_filter.1 h).1

lemma lget_lerase_self {α : Type} (c : List (String × α)) (k : String) :
    lget (lerase c k) k = none := by
  induction c with
  | nil => rfl
  | cons p rest ih =>
    obtain ⟨k1, v1⟩ := p
    by_cases hk : k1 = k
    · simpa [lerase, List.filter_cons, hk] using ih
    · simpa [lerase, List.filter_cons, hk, lget] using ih

lemma cache_get_snd_cases (now : ℚ) (c : LocalCache) (k : String) :
    (cache_get now c k).2 = c ∨ (cache_get now c k).2 = lerase c k := by
  unfold cache_get
  rcases lget c k with _ | ⟨ts, data⟩
  · left; rfl
  · by_cases ht : CACHE_TTL < now - ts
    · right; simp [ht]
    · left; simp [ht]

lemma mem_cache_get_snd {now : ℚ} {c : LocalCache} {k : String}
    {p : String × (ℚ × List Sug)} (h : p ∈ (cache_get now c k).2) : p ∈ c := by
  rcases cache_get_snd_cases now c k with h2 | h2 <;> rw [h2] at h
  · exact h
  · exact mem_lerase h

lemma cache_get_some {now : ℚ} {c : LocalCache} {k : String} {v : List Sug}
    {c2 : LocalCache} (h : cache_get now c k = (some v, c2)) : c2 = c := by
  unfold cache_get at h
  split at h
  · exact absurd h (by simp)
  · split at h
    · exact absurd h (by simp)
    · injection h with h1 h2
      exact h2.symm

lemma cache_get_some_mem {now : ℚ} {c : LocalCache} {k : String}
    {v : List Sug} {c2 : LocalCache} (h : cache_get now c k = (some v, c2)) :
    ∃ ts, (k, (ts, v)) ∈ c := by
  unfold cache_get at h
  split at h
  · exact absurd h (by simp)
  · next ts data hg =>
    split at h
    · exact absurd h (by simp)
    · injection h with h1 h2
      injection h1 with h1
      exact ⟨ts, h1 ▸ lget_mem hg⟩

lemma cache_get_fst_none_lget {now : ℚ} {c : LocalCache} {k : String}
    (h : (cache_get now c k).1 = none) :
    lget (cache_get now c k).2 k = none := by
  unfold cache_get at h ⊢
  rcases hg : lget c k with _ | ⟨ts, data⟩
  · simp only [hg]
  · simp only [hg] at h ⊢
    split at h
    · next ht =>
      rw [if_pos ht]
      exact lget_lerase_self c k
    · exact absurd h (by simp)


/-! Helper lemmas about deduplication and the stable descending sort. -/

lemma dedupBy_sublist (key : Sug → String) (l : List Sug) :
    ∀ seen, List.Sublist (dedupBy key l seen) l := by
  induction l with
  | nil => intro seen; simp [dedupBy]
  | cons x xs ih =>
    intro seen
    simp only [dedupBy]
    by_cases h : key x ∈ seen
    · rw [if_pos h]
      exact (ih seen).trans (List.sublist_cons_self x xs)
    · rw [if_neg h]
      exact (ih (key x :: seen)).cons₂ x

lemma dedupBy_spec (key : Sug → String) (l : List Sug) : ∀ seen,
    ((dedupBy key l seen).map key).Nodup
      ∧ ∀ x ∈ dedupBy key l seen, key x ∉ seen := by
  induction l with
  | nil => intro seen; simp [dedupBy]
  | cons x xs ih =>
    intro seen
    simp only [dedupBy]
    by_cases h : key x ∈ seen
    · rw [if_pos h]
      exact ih seen
    · rw [if_neg h]
      obtain ⟨h1, h2⟩ := ih (key x :: seen)
      refine ⟨?_, ?_⟩
      · rw [List.map_cons, List.nodup_cons]
        refine ⟨?_, h1⟩
        intro hmem
        obtain ⟨y, hy, hky⟩ := List.mem_map.1 hmem
        exact (h2 y hy) (hky ▸ List.mem_cons_self _ _)
      · intro z hz
        rcases List.mem_cons.1 hz with rfl | hz2
        · exact h
        · exact fun hzs => (h2 z hz2) (List.mem_cons_of_mem _ hzs)

lemma sortDesc_perm (l : List Sug) : (sortDesc l).Perm l :=
  List.perm_insertionSort scoreGe l

lemma sortDesc_sorted (l : List Sug) : List.Sorted scoreGe (sortDesc l) :=
  List.sorted_insertionSort scoreGe l

lemma orderedInsert_filter_score (s : ℚ) (x : Sug) (l : List Sug) :
    (List.orderedInsert scoreGe x l).filter (fun a => decide (a.score = s))
      = if x.score = s
        then x :: l.filter (fun a => decide (a.score = s))
        else l.filter (fun a => decide (a.score = s)) := by
  induction l with
  | nil =>
    by_cases hx : x.score = s <;> simp [List.orderedInsert, hx]
  | cons y ys ih =>
    simp only [List.orderedInsert]
    by_cases hxy : scoreGe x y
    · rw [if_pos hxy]
      by_cases hx : x.score = s <;> simp [List.filter_cons, hx]
    · rw [if_neg hxy]
      have hlt : x.score < y.score := not_le.mp hxy
      by_cases hy : y.score = s
      · have hx : ¬ x.score = s := hy ▸ ne_of_lt hlt
        simp [List.filter_cons, hy, hx, ih]
      · by_cases hx : x.score = s <;> simp [List.filter_cons, hy, hx, ih]

lemma sortDesc_filter_score (s : ℚ) (l : List Sug) :
    (sortDesc l).filter (fun a => decide (a.score = s))
      = l.filter (fun a => decide (a.score = s)) := by
  induction l with
  | nil => rfl
  | cons x xs ih =>
    show (List.orderedInsert scoreGe x (sortDesc xs)).filter _ = _
    rw [orderedInsert_filter_score, ih]
    by_cases hx : x.score = s <;> simp [List.filter_cons, hx]

lemma all_suggestions_ids_nodup (provider : String → Option (List Sug))
    (names : List String) :
    ((all_suggestions provider names).map
      (fun s => s.youtube_video_id)).Nodup :=
  (dedupBy_spec (fun s => s.youtube_video_id) _ []).1

lemma rank_result_dedupOk (l : List Sug)
    (hid : (l.map (fun s => s.youtube_video_id)).Nodup) :
    DedupOk (rank_result l) := by
  have hperm : ((sortDesc l).map (fun s => s.youtube_video_id)).Perm
      (l.map (fun s => s.youtube_video_id)) :=
    (sortDesc_perm l).map _
  have hsort : ((sortDesc l).map (fun s => s.youtube_video_id)).Nodup :=
    hperm.nodup_iff.2 hid
  have hsub1 : List.Sublist
      (dedupBy (fun s => strLower s.title) (sortDesc l) []) (sortDesc l) :=
    dedupBy_sublist _ _ []
  have hsub2 : List.Sublist (rank_result l)
      (dedupBy (fun s => strLower s.title) (sortDesc l) []) :=
    List.take_sublist 5 _
  constructor
  · exact hsort.sublist ((hsub2.trans hsub1).map _)
  · exact ((dedupBy_spec (fun s => strLower s.title) (sortDesc l) []).1).sublist
      (hsub2.map _)

lemma rank_result_length (l : List Sug) : (rank_result l).length ≤ 5 :=
  List.length_take_le 5 _

/-! Helper lemmas about the fallback selector. -/

lemma chooseAt_of_ne_nil (k : Nat) {l : List FItem} (h : l ≠ []) :
    ∃ x, chooseAt k l = some x := by
  have hl : 0 < l.length := List.length_pos.mpr h
  have hm : k % l.length < l.length := Nat.mod_lt _ hl
  exact ⟨l[k % l.length], List.getElem?_eq_getElem hm⟩

lemma gpsf_eq_singleton {fetched : Option (List FItem)} {k : Nat}
    {l : List Sug} (h : get_popular_song_fallback fetched k = some l) :
    ∃ it, l = [fallbackSug it] := by
  rcases fetched with _ | items
  · exact absurd h (by simp [get_popular_song_fallback])
  · simp only [get_popular_song_fallback] at h
    split at h
    · exact absurd h (by simp)
    · split at h
      · split at h
        · next song hc =>
          injection h with h
          exact ⟨song, h.symm⟩
        · exact absurd h (by simp)
      · split at h
        · next song hc =>
          injection h with h
          exact ⟨song, h.symm⟩
        · exact absurd h (by simp)

lemma gpsf_of_items_ne_nil {items : List FItem} (k : Nat) (h : items ≠ []) :
    ∃ it, get_popular_song_fallback (some items) k = some [fallbackSug it] := by
  have he : items.isEmpty = false := by
    simpa [List.isEmpty_iff] using h
  by_cases hp : (items.filter hasHighViews).isEmpty = true
  · obtain ⟨x, hx⟩ := chooseAt_of_ne_nil k h
    exact ⟨x, by simp only [get_popular_song_fallback, he, hp, hx]; rfl⟩
  · have hp2 : (items.filter hasHighViews).isEmpty = false :=
      Bool.eq_false_iff.mpr hp
    have hpl : items.filter hasHighViews ≠ [] := by
      simpa [List.isEmpty_iff] using hp
    obtain ⟨x, hx⟩ := chooseAt_of_ne_nil k hpl
    exact ⟨x, by simp only [get_popular_song_fallback, he, hp2, hx]; rfl⟩

/-! Path lemmas for `combine_suggestions`. -/

lemma combine_redis_hit {redisOn : Bool} {provider : String → Option (List Sug)}
    {ff : Option (List FItem)} {pick : Nat} {now : ℚ} {names : List String}
    {st : SvcState} {v : List Sug}
    (h : (if redisOn then lget st.redisCache (cache_key names) else none)
          = some v) :
    combine_suggestions redisOn provider ff pick now names st = (v, st) := by
  simp only [combine_suggestions, h]

lemma combine_local_hit {redisOn : Bool}
    {provider : String → Option (List Sug)} {ff : Option (List FItem)}
    {pick : Nat} {now : ℚ} {names : List String} {st : SvcState}
    {v : List Sug} {c1 : LocalCache}
    (h1 : (if redisOn then lget st.redisCache (cache_key names) else none)
          = none)
    (h2 : cache_get now st.localCache (cache_key names) = (some v, c1)) :
    combine_suggestions redisOn provider ff pick now names st
      = (v, { st with localCache := c1 }) := by
  simp only [combine_suggestions, h1, h2]

lemma combine_miss {redisOn : Bool} {provider : String → Option (List Sug)}
    {ff : Option (List FItem)} {pick : Nat} {now : ℚ} {names : List String}
    {st : SvcState} {c1 : LocalCache}
    (h1 : (if redisOn then lget st.redisCache (cache_key names) else none)
          = none)
    (h2 : cache_get now st.localCache (cache_key names) = (none, c1)) :
    combine_suggestions redisOn provider ff pick now names st
      = run_pipeline redisOn provider ff pick now (cache_key names) names
          { st with localCache := c1 } := by
  simp only [combine_suggestions, h1, h2]

lemma run_pipeline_fallback_eq {redisOn : Bool}
    {provider : String → Option (List Sug)} {ff : Option (List FItem)}
    {pick : Nat} {now : ℚ} {key : String} {names : List String}
    {st : SvcState} {f : Sug} {fs : List Sug}
    (hm : all_suggestions provider names = [])
    (hf : get_popular_song_fallback ff pick = some (f :: fs)) :
    run_pipeline redisOn provider ff pick now key names st
      = (f :: fs, { st with
                    seedCalls := st.seedCalls + names.length,
                    fallbackFetches := st.fallbackFetches + 1 }) := by
  simp only [run_pipeline, hm, List.isEmpty_nil, if_true, hf]

lemma run_pipeline_finish_nonempty {redisOn : Bool}
    {provider : String → Option (List Sug)} {ff : Option (List FItem)}
    {pick : Nat} {now : ℚ} {key : String} {names : List String}
    {st : SvcState} (hm : all_suggestions provider names ≠ []) :
    run_pipeline redisOn provider ff pick now key names st
      = finish redisOn now key (all_suggestions provider names)
          { st with seedCalls := st.seedCalls + names.length } := by
  have hm2 : (all_suggestions provider names).isEmpty = false := by
    simpa [List.isEmpty_iff] using hm
  simp only [run_pipeline, hm2, Bool.false_eq_true, if_false]

lemma run_pipeline_finish_empty {redisOn : Bool}
    {provider : String → Option (List Sug)} {ff : Option (List FItem)}
    {pick : Nat} {now : ℚ} {key : String} {names : List String}
    {st : SvcState} (hm : all_suggestions provider names = [])
    (hf : ∀ f fs, get_popular_song_fallback ff pick ≠ some (f :: fs)) :
    run_pipeline redisOn provider ff pick now key names st
      = finish redisOn now key []
          { st with
            seedCalls := st.seedCalls + names.length,
            fallbackFetches := st.fallbackFetches + 1 } := by
  rcases hg : get_popular_song_fallback ff pick with _ | l
  · simp only [run_pipeline, hm, List.isEmpty_nil, if_true, hg]
  · rcases l with _ | ⟨f, fs⟩
    · simp only [run_pipeline, hm, List.isEmpty_nil, if_true, hg]
    · exact absurd hg (hf f fs)

lemma combine_cases (redisOn : Bool) (provider : String → Option (List Sug))
    (ff : Option (List FItem)) (pick : Nat) (now : ℚ) (names : List String)
    (st : SvcState) (out : List Sug × SvcState)
    (hout : combine_suggestions redisOn provider ff pick now names st = out) :
    (out.2 = st ∧ ((cache_key names, out.1) ∈ st.redisCache
        ∨ ∃ ts, (cache_key names, (ts, out.1)) ∈ st.localCache))
    ∨ (∃ it, out.1 = [fallbackSug it]
        ∧ out.2.localCache = (cache_get now st.localCache (cache_key names)).2
        ∧ out.2.redisCache = st.redisCache)
    ∨ (out.1 = rank_result (all_suggestions provider names)
        ∧ out.2.localCache = cache_set now
            (cache_get now st.localCache (cache_key names)).2
            (cache_key names) out.1
        ∧ out.2.redisCache = (if redisOn then
            (cache_key names, out.1) :: st.redisCache else st.redisCache)) := by
  rcases hR : (if redisOn then lget st.redisCache (cache_key names) else none)
    with _ | v
  · rcases hp : cache_get now st.localCache (cache_key names) with ⟨o, c1⟩
    rcases o with _ | v
    · rw [combine_miss hR hp] at hout
      by_cases hm : all_suggestions provider names = []
      · rcases hgf : get_popular_song_fallback ff pick with _ | l
        · right; right
          rw [run_pipeline_finish_empty hm
            (fun f fs hff => by rw [hgf] at hff; cases hff)] at hout
          subst hout
          refine ⟨by rw [hm]; rfl, ?_, ?_⟩
          · rfl
          · rfl
        · rcases l with _ | ⟨f, fs⟩
          · right; right
            rw [run_pipeline_finish_empty hm
              (fun f fs hff => by rw [hgf] at hff; cases hff)] at hout
            subst hout
            refine ⟨by rw [hm]; rfl, ?_, ?_⟩
            · rfl
            · rfl
          · right; left
            rw [run_pipeline_fallback_eq hm hgf] at hout
            obtain ⟨it, hit⟩ := gpsf_eq_singleton hgf
            subst hout
            exact ⟨it, hit, rfl, rfl⟩
      · right; right
        rw [run_pipeline_finish_nonempty hm] at hout
        subst hout
        refine ⟨rfl, ?_, ?_⟩
        · rfl
        · rfl
    · left
      have hc1 : c1 = st.localCache := cache_get_some hp
      subst hc1
      rw [combine_local_hit hR hp] at hout
      subst hout
      obtain ⟨ts, hts⟩ := cache_get_some_mem hp
      exact ⟨rfl, Or.inr ⟨ts, hts⟩⟩
  · left
    rw [combine_redis_hit hR] at hout
    subst hout
    rcases redisOn with _ | _
    · exact absurd hR (by simp)
    · rw [if_pos rfl] at hR
      exact ⟨rfl, Or.inl (lget_mem hR)⟩

/-! Claim theorems. -/

/-- Claim C7: for all seed lists that are permutations of the same multiset
of strings up to lower-casing and trimming, the derived cache fingerprint
key is identical. -/
theorem C7_fingerprint_order_independent (l1 l2 : List String)
    (h : (l1.map normSeed).Perm (l2.map normSeed)) :
    cache_key l1 = cache_key l2 := by
  unfold cache_key
  congr 1
  have hs1 : List.Sorted (fun a b : String => a ≤ b)
      (List.insertionSort (fun a b : String => a ≤ b) (l1.map normSeed)) :=
    List.sorted_insertionSort _ _
  have hs2 : List.Sorted (fun a b : String => a ≤ b)
      (List.insertionSort (fun a b : String => a ≤ b) (l2.map normSeed)) :=
    List.sorted_insertionSort _ _
  exact List.eq_of_perm_of_sorted
    (((List.perm_insertionSort _ _).trans h).trans
      (List.perm_insertionSort _ _).symm) hs1 hs2

/-- Witness for C7 at the concrete permuted seed lists
["  B", "a "] and ["a", " b "]. -/
theorem C7_fingerprint_order_independent_witness :
    cache_key ["  B", "a "] = cache_key ["a", " b "] :=
  C7_fingerprint_order_independent ["  B", "a "] ["a", " b "] (by decide)

/-- Claim C9: after the first-occurrence-wins merge by external id
(`all_suggestions`, seeds in input order), the sort stage (`sortDesc`) is a
permutation of the merged list, is non-increasing in score, and is stable:
for every score value, the elements carrying that score appear in exactly
their merged-input order. -/
theorem C9_sort_stage_stable (provider : String → Option (List Sug))
    (names : List String) :
    (sortDesc (all_suggestions provider names)).Perm
        (all_suggestions provider names)
    ∧ List.Pairwise (fun a b => b.score ≤ a.score)
        (sortDesc (all_suggestions provider names))
    ∧ ∀ s : ℚ,
        (sortDesc (all_suggestions provider names)).filter
            (fun a => decide (a.score = s))
          = (all_suggestions provider names).filter
              (fun a => decide (a.score = s)) :=
  ⟨sortDesc_perm _, sortDesc_sorted _, fun s => sortDesc_filter_score s _⟩

/-- Claim C6: every score produced by the scoring pipeline lies in (0, 4]:
the heuristic base starts at 1, all additive signals are non-negative, the
similarity term is non-negative, and the total is capped at 4; the fallback
produces score 1 which also lies in (0, 4]. -/
theorem C6_score_bound :
    (∀ (title channel original_title original_channel : String)
        (video_views : Nat) (sim : ℚ), 0 ≤ sim →
        0 < total_score
            (base_score title channel original_title original_channel
              video_views) sim
        ∧ total_score
            (base_score title channel original_title original_channel
              video_views) sim ≤ 4)
    ∧ (∀ (fetched : Option (List FItem)) (k : Nat) (l : List Sug),
        get_popular_song_fallback fetched k = some l →
        ∀ x ∈ l, 0 < x.score ∧ x.score ≤ 4) := by
  constructor
  · intro t c ot oc v sim hsim
    have hv : (0:ℚ) ≤ 0.3 * ((v:ℚ) / 1000000) := by positivity
    have hb : (1:ℚ) ≤ base_score t c ot oc v := by
      unfold base_score
      split_ifs <;> nlinarith
    refine ⟨lt_min (by nlinarith) (by norm_num), min_le_right _ _⟩
  · intro f k l hl x hx
    obtain ⟨it, rfl⟩ := gpsf_eq_singleton hl
    rcases List.mem_singleton.1 hx with rfl
    refine ⟨by norm_num [fallbackSug], by norm_num [fallbackSug]⟩

/-- Witness for C6: a concrete candidate with similarity 0, and a concrete
fallback catalog item. -/
theorem C6_score_bound_witness :
    (0 < total_score (base_score "t" "c" "t" "c" 0) 0
      ∧ total_score (base_score "t" "c" "t" "c" 0) 0 ≤ 4)
    ∧ ∀ x ∈ [fallbackSug ⟨"a", "b", "v", some 200000000⟩],
        0 < x.score ∧ x.score ≤ 4 :=
  ⟨C6_score_bound.1 "t" "c" "t" "c" 0 0 le_rfl,
   C6_score_bound.2 (some [⟨"a", "b", "v", some 200000000⟩]) 0 _ (by decide)⟩

/-- Claim C5 (code bug): in `get_youtube_suggestions`, when the TF-IDF
similarity step fails (e.g. sklearn raises ValueError on a degenerate
vocabulary), the error escapes the scoring pass instead of degrading to
heuristic-only scores: only `RequestException` is caught (main.py:356); the
generic handler that would log "Unexpected error" and return None is dead
code after the unconditional `return None` at main.py:358 (lines 359-360
are unreachable).  At a concrete nonempty candidate set, a ValueError
propagates while a RequestException degrades to None. -/
theorem C5_tfidf_error_escapes :
    score_pass [⟨"v1", "the of and", "ch", 1⟩]
        (Except.error (PyErr.valueError "empty vocabulary"))
      = Except.error (PyErr.valueError "empty vocabulary")
    ∧ score_pass [⟨"v1", "the of and", "ch", 1⟩]
        (Except.error (PyErr.requestException "timeout"))
      = Except.ok none :=
  ⟨rfl, rfl⟩

/-- Claim C4 (code bug): the claimed diff-based persistence never happens.
`_persist_user_likes_write_through` iterates the bare call
`get_write_sessions()` at main.py:119; that call returns the non-iterable
_GeneratorContextManager wrapper (db.py:103-104 decorates the function with
`@contextmanager`), so every invocation — in particular persisting {A,B}
and then {B,C} for a user — raises TypeError before any row operation.
Nothing is inserted, deleted, or stored, and the try/except inside the loop
body cannot catch the exception, so it escapes to the request handler. -/
theorem C4_persist_raises_typeerror :
    (∀ (store : UserStore) (songs : List String),
        persist_user_likes store songs
          = Except.error (PyErr.typeError "object is not iterable"))
    ∧ persist_user_likes ⟨[], 0⟩ ["A", "B"]
        = Except.error (PyErr.typeError "object is not iterable")
    ∧ persist_user_likes ⟨[], 0⟩ ["B", "C"]
        = Except.error (PyErr.typeError "object is not iterable") :=
  ⟨fun _ _ => rfl, rfl, rfl⟩

/-- Claim C1: on every return path of `combine_suggestions` — cache hit,
fallback, and ranked pipeline — the returned list has pairwise-distinct
youtube_video_id values and pairwise-distinct lower-cased titles, provided
every value already stored in the caches satisfies the same invariant
(trivially true of the empty initial caches); and the invariant is
preserved by the cache writes the call performs. -/
theorem C1_dedup_invariant (redisOn : Bool)
    (provider : String → Option (List Sug)) (ff : Option (List FItem))
    (pick : Nat) (now : ℚ) (names : List String) (st : SvcState)
    (h : CacheDedupOk st) :
    DedupOk (combine_suggestions redisOn provider ff pick now names st).1
    ∧ CacheDedupOk
        (combine_suggestions redisOn provider ff pick now names st).2 := by
  rcases combine_cases redisOn provider ff pick now names st
      (combine_suggestions redisOn provider ff pick now names st) rfl with
    ⟨h2, hmem | ⟨ts, hmem⟩⟩ | ⟨it, h1, hloc, hred⟩ | ⟨h1, hloc, hred⟩
  · exact ⟨h.2 _ hmem, by rw [h2]; exact h⟩
  · exact ⟨h.1 _ hmem, by rw [h2]; exact h⟩
  · refine ⟨?_, ?_, ?_⟩
    · rw [h1]
      exact ⟨by simp, by simp⟩
    · intro p hp
      rw [hloc] at hp
      exact h.1 p (mem_cache_get_snd hp)
    · intro p hp
      rw [hred] at hp
      exact h.2 p hp
  · have hded :
        DedupOk (combine_suggestions redisOn provider ff pick now names st).1 := by
      rw [h1]
      exact rank_result_dedupOk _ (all_suggestions_ids_nodup provider names)
    refine ⟨hded, ?_, ?_⟩
    · intro p hp
      rw [hloc] at hp
      simp only [cache_set] at hp
      rcases List.mem_cons.1 hp with rfl | hp2
      · exact hded
      · exact h.1 p (mem_cache_get_snd hp2)
    · intro p hp
      rw [hred] at hp
      rcases redisOn with _ | _
      · rw [if_neg (by simp)] at hp
        exact h.2 p hp
      · rw [if_pos rfl] at hp
        rcases List.mem_cons.1 hp with rfl | hp2
        · exact hded
        · exact h.2 p hp2

/-- Witness for C1: a concrete run over two seeds whose candidate lists
overlap in both an external id and a normalized title, starting from empty
caches. -/
theorem C1_dedup_invariant_witness :
    DedupOk (combine_suggestions false
        (fun n => if n = "s1"
          then some [⟨"T1", "a", "v1", 2⟩, ⟨"T2", "a", "v2", 1⟩]
          else some [⟨"t1", "b", "v3", 3⟩, ⟨"T1", "a", "v1", 4⟩])
        none 0 0 ["s1", "s2"] ⟨[], [], 0, 0⟩).1
    ∧ CacheDedupOk (combine_suggestions false
        (fun n => if n = "s1"
          then some [⟨"T1", "a", "v1", 2⟩, ⟨"T2", "a", "v2", 1⟩]
          else some [⟨"t1", "b", "v3", 3⟩, ⟨"T1", "a", "v1", 4⟩])
        none 0 0 ["s1", "s2"] ⟨[], [], 0, 0⟩).2 :=
  C1_dedup_invariant false
    (fun n => if n = "s1"
      then some [⟨"T1", "a", "v1", 2⟩, ⟨"T2", "a", "v2", 1⟩]
      else some [⟨"t1", "b", "v3", 3⟩, ⟨"T1", "a", "v1", 4⟩])
    none 0 0 ["s1", "s2"] ⟨[], [], 0, 0⟩
    ⟨fun p hp => absurd hp (List.not_mem_nil p),
     fun p hp => absurd hp (List.not_mem_nil p)⟩

/-- Claim C8: for every seed list, provider behaviour, fallback outcome and
cache state whose stored values have length at most 5 (trivially true
initially), the suggestion list returned by `combine_suggestions` has
length at most 5, and all cache writes preserve the bound. -/
theorem C8_topk_truncation (redisOn : Bool)
    (provider : String → Option (List Sug)) (ff : Option (List FItem))
    (pick : Nat) (now : ℚ) (names : List String) (st : SvcState)
    (h : CacheLenOk st) :
    (combine_suggestions redisOn provider ff pick now names st).1.length ≤ 5
    ∧ CacheLenOk
        (combine_suggestions redisOn provider ff pick now names st).2 := by
  rcases combine_cases redisOn provider ff pick now names st
      (combine_suggestions redisOn provider ff pick now names st) rfl with
    ⟨h2, hmem | ⟨ts, hmem⟩⟩ | ⟨it, h1, hloc, hred⟩ | ⟨h1, hloc, hred⟩
  · exact ⟨h.2 _ hmem, by rw [h2]; exact h⟩
  · exact ⟨h.1 _ hmem, by rw [h2]; exact h⟩
  · refine ⟨?_, ?_, ?_⟩
    · rw [h1]
      simp
    · intro p hp
      rw [hloc] at hp
      exact h.1 p (mem_cache_get_snd hp)
    · intro p hp
      rw [hred] at hp
      exact h.2 p hp
  · have hlen :
        (combine_suggestions redisOn provider ff pick now names st).1.length
          ≤ 5 := by
      rw [h1]
      exact rank_result_length _
    refine ⟨hlen, ?_, ?_⟩
    · intro p hp
      rw [hloc] at hp
      simp only [cache_set] at hp
      rcases List.mem_cons.1 hp with rfl | hp2
      · exact hlen
      · exact h.1 p (mem_cache_get_snd hp2)
    · intro p hp
      rw [hred] at hp
      rcases redisOn with _ | _
      · rw [if_neg (by simp)] at hp
        exact h.2 p hp
      · rw [if_pos rfl] at hp
        rcases List.mem_cons.1 hp with rfl | hp2
        · exact hlen
        · exact h.2 p hp2

/-- Witness for C8: one seed whose provider returns seven distinct
candidates; the returned list is nevertheless capped at 5. -/
theorem C8_topk_truncation_witness :
    (combine_suggestions false
        (fun _ => some [⟨"t1", "a", "v1", 7⟩, ⟨"t2", "a", "v2", 6⟩,
          ⟨"t3", "a", "v3", 5⟩, ⟨"t4", "a", "v4", 4⟩, ⟨"t5", "a", "v5", 3⟩,
          ⟨"t6", "a", "v6", 2⟩, ⟨"t7", "a", "v7", 1⟩])
        none 0 0 ["s"] ⟨[], [], 0, 0⟩).1.length ≤ 5
    ∧ CacheLenOk (combine_suggestions false
        (fun _ => some [⟨"t1", "a", "v1", 7⟩, ⟨"t2", "a", "v2", 6⟩,
          ⟨"t3", "a", "v3", 5⟩, ⟨"t4", "a", "v4", 4⟩, ⟨"t5", "a", "v5", 3⟩,
          ⟨"t6", "a", "v6", 2⟩, ⟨"t7", "a", "v7", 1⟩])
        none 0 0 ["s"] ⟨[], [], 0, 0⟩).2 :=
  C8_topk_truncation false
    (fun _ => some [⟨"t1", "a", "v1", 7⟩, ⟨"t2", "a", "v2", 6⟩,
      ⟨"t3", "a", "v3", 5⟩, ⟨"t4", "a", "v4", 4⟩, ⟨"t5", "a", "v5", 3⟩,
      ⟨"t6", "a", "v6", 2⟩, ⟨"t7", "a", "v7", 1⟩])
    none 0 0 ["s"] ⟨[], [], 0, 0⟩
    ⟨fun p hp => absurd hp (List.not_mem_nil p),
     fun p hp => absurd hp (List.not_mem_nil p)⟩

lemma cache_get_cons_fresh (now ts : ℚ) (c : LocalCache) (k : String)
    (v : List Sug) (h : ¬ CACHE_TTL < now - ts) :
    cache_get now ((k, (ts, v)) :: c) k = (some v, (k, (ts, v)) :: c) := by
  unfold cache_get
  simp only [lget_cons_self, if_neg h]

lemma cache_get_cons_expired (now ts : ℚ) (c : LocalCache) (k : String)
    (v : List Sug) (h : CACHE_TTL < now - ts) :
    cache_get now ((k, (ts, v)) :: c) k
      = (none, lerase ((k, (ts, v)) :: c) k) := by
  unfold cache_get
  simp only [lget_cons_self, if_pos h]

lemma combine_after_finish (redisOn : Bool)
    (provider : String → Option (List Sug)) (ff : Option (List FItem))
    (p2 : Nat) (now1 now2 : ℚ) (names : List String) (merged : List Sug)
    (stA : SvcState) (httl : now2 - now1 ≤ CACHE_TTL) :
    combine_suggestions redisOn provider ff p2 now2 names
        (finish redisOn now1 (cache_key names) merged stA).2
      = finish redisOn now1 (cache_key names) merged stA := by
  rcases redisOn with _ | _
  · have h2 := cache_get_cons_fresh now2 now1 stA.localCache (cache_key names)
      (rank_result merged) (not_lt.2 httl)
    rw [@combine_local_hit false provider ff p2 now2 names
        ((finish false now1 (cache_key names) merged stA).2)
        (rank_result merged)
        ((cache_key names, (now1, rank_result merged)) :: stA.localCache)
        rfl h2]
    rfl
  · have h2 : (if true then lget
        (finish true now1 (cache_key names) merged stA).2.redisCache
        (cache_key names) else none) = some (rank_result merged) := by
      show lget ((cache_key names, rank_result merged) :: stA.redisCache)
        (cache_key names) = _
      exact lget_cons_self _ _ _
    rw [combine_redis_hit h2]
    rfl

/-- Counterexample for C2: with one seed "hello", every per-seed provider
fetch Empty, and a fallback catalog whose only item is titled "hello", the
final result is the fallback item itself: non-empty, but its normalized
title equals the normalized input seed, so the claimed seed-title exclusion
does not hold (the fallback in the code never receives, let alone filters
by, the seed list). -/
theorem C2_counterexample :
    (combine_suggestions false (fun _ => none)
        (some [⟨"hello", "chan", "vid1", some 200000000⟩]) 0 0 ["hello"]
        ⟨[], [], 0, 0⟩).1 ≠ []
    ∧ ∃ x ∈ (combine_suggestions false (fun _ => none)
        (some [⟨"hello", "chan", "vid1", some 200000000⟩]) 0 0 ["hello"]
        ⟨[], [], 0, 0⟩).1,
        py_normalize x.title ∈ ["hello"].map py_normalize := by decide

/-- Claim C2 as amended: if every per-seed provider fetch returns Empty and
the fallback catalog fetch returns a non-empty item list, then (on a cache
miss) the final result of `combine_suggestions` is non-empty.  The claimed
additional property — that no returned title matches a normalized input
seed — is dropped: the fallback in the code performs no such filtering. -/
theorem C2_fallback_nonempty_amended (redisOn : Bool)
    (provider : String → Option (List Sug)) (items : List FItem)
    (pick : Nat) (now : ℚ) (names : List String) (st : SvcState)
    (hprov : ∀ n ∈ names, provider n = none)
    (hitems : items ≠ [])
    (hr : (if redisOn then lget st.redisCache (cache_key names) else none)
          = none)
    (hl : (cache_get now st.localCache (cache_key names)).1 = none) :
    (combine_suggestions redisOn provider (some items) pick now names st).1
      ≠ [] := by
  have hm : all_suggestions provider names = [] := by
    unfold all_suggestions
    have hfl : (names.map (fun n => (provider n).getD [])).flatten = [] := by
      rw [List.flatten_eq_nil_iff]
      intro l hli
      obtain ⟨n, hn, rfl⟩ := List.mem_map.1 hli
      rw [hprov n hn]
      rfl
    rw [hfl]
    rfl
  obtain ⟨it, hf⟩ := gpsf_of_items_ne_nil pick hitems
  rcases hp : cache_get now st.localCache (cache_key names) with ⟨o, c1⟩
  have ho : o = none := by
    have h0 := hl
    rw [hp] at h0
    exact h0
  subst ho
  rw [combine_miss hr hp, run_pipeline_fallback_eq hm hf]
  simp

/-- Witness for C2 (amended) at a concrete total-primary-failure input with
a one-item fallback catalog and empty caches. -/
theorem C2_fallback_nonempty_amended_witness :
    (combine_suggestions false (fun _ => none)
        (some [⟨"a", "b", "c", some 1⟩]) 0 0 ["x"] ⟨[], [], 0, 0⟩).1 ≠ [] :=
  C2_fallback_nonempty_amended false (fun _ => none) [⟨"a", "b", "c", some 1⟩]
    0 0 ["x"] ⟨[], [], 0, 0⟩ (fun n _ => rfl) (by decide) rfl rfl

/-- Counterexample for C3: one seed "a", providers returning Empty on both
calls (identical provider behaviour), and a two-item fallback catalog.  The
first call is served by the fallback and — because the fallback path writes
no cache entry — the second identical call within TTL re-runs the pipeline:
it invokes the fallback catalog fetch again (the fetch counter increments),
and with a fresh random draw it returns different content. -/
theorem C3_counterexample :
    ((combine_suggestions false (fun _ => none)
        (some [⟨"t1", "c1", "v1", some 200000000⟩,
               ⟨"t2", "c2", "v2", some 300000000⟩]) 1 1 ["a"]
        (combine_suggestions false (fun _ => none)
          (some [⟨"t1", "c1", "v1", some 200000000⟩,
                 ⟨"t2", "c2", "v2", some 300000000⟩]) 0 0 ["a"]
          ⟨[], [], 0, 0⟩).2).2).fallbackFetches
      = ((combine_suggestions false (fun _ => none)
          (some [⟨"t1", "c1", "v1", some 200000000⟩,
                 ⟨"t2", "c2", "v2", some 300000000⟩]) 0 0 ["a"]
          ⟨[], [], 0, 0⟩).2).fallbackFetches + 1
    ∧ (combine_suggestions false (fun _ => none)
        (some [⟨"t1", "c1", "v1", some 200000000⟩,
               ⟨"t2", "c2", "v2", some 300000000⟩]) 1 1 ["a"]
        (combine_suggestions false (fun _ => none)
          (some [⟨"t1", "c1", "v1", some 200000000⟩,
                 ⟨"t2", "c2", "v2", some 300000000⟩]) 0 0 ["a"]
          ⟨[], [], 0, 0⟩).2).1
      ≠ (combine_suggestions false (fun _ => none)
          (some [⟨"t1", "c1", "v1", some 200000000⟩,
                 ⟨"t2", "c2", "v2", some 300000000⟩]) 0 0 ["a"]
          ⟨[], [], 0, 0⟩).1 := by decide

/-- Claim C3 as amended: when the result of the first call is produced by the
ranked pipeline (some seed produced candidates, or both primary and
fallback failed) — i.e. whenever the first call writes the cache — a second
identical request within the TTL is answered from cache: it returns exactly
the list of the first call and leaves the whole service state unchanged; in
particular no per-seed fetch and no fallback fetch is invoked.  (When the
first call is served by the fallback, nothing is cached and the second call
re-runs the pipeline; see the counterexample.) -/
theorem C3_cache_idempotent_amended (redisOn : Bool)
    (provider : String → Option (List Sug)) (ff : Option (List FItem))
    (p1 p2 : Nat) (now1 now2 : ℚ) (names : List String) (st : SvcState)
    (hr : (if redisOn then lget st.redisCache (cache_key names) else none)
          = none)
    (hl : (cache_get now1 st.localCache (cache_key names)).1 = none)
    (hpath : all_suggestions provider names ≠ []
             ∨ ∀ f fs, get_popular_song_fallback ff p1 ≠ some (f :: fs))
    (httl : now2 - now1 ≤ CACHE_TTL) :
    combine_suggestions redisOn provider ff p2 now2 names
        (combine_suggestions redisOn provider ff p1 now1 names st).2
      = combine_suggestions redisOn provider ff p1 now1 names st := by
  rcases hp : cache_get now1 st.localCache (cache_key names) with ⟨o, c1⟩
  have ho : o = none := by
    have h0 := hl
    rw [hp] at h0
    exact h0
  subst ho
  rw [combine_miss hr hp]
  by_cases hm : all_suggestions provider names = []
  · have hfail : ∀ f fs, get_popular_song_fallback ff p1 ≠ some (f :: fs) := by
      rcases hpath with hne | hf
      · exact absurd hm hne
      · exact hf
    rw [run_pipeline_finish_empty hm hfail]
    exact combine_after_finish _ _ _ _ _ _ _ _ _ httl
  · rw [run_pipeline_finish_nonempty hm]
    exact combine_after_finish _ _ _ _ _ _ _ _ _ httl

/-- Witness for C3 (amended): a provider that returns one candidate, empty
initial caches, and a second call ten seconds after the first. -/
theorem C3_cache_idempotent_amended_witness :
    combine_suggestions false (fun _ => some [⟨"T", "A", "v1", 2⟩]) none 0 10
        ["x"] (combine_suggestions false (fun _ => some [⟨"T", "A", "v1", 2⟩])
          none 0 0 ["x"] ⟨[], [], 0, 0⟩).2
      = combine_suggestions false (fun _ => some [⟨"T", "A", "v1", 2⟩]) none 0 0
          ["x"] ⟨[], [], 0, 0⟩ :=
  C3_cache_idempotent_amended false (fun _ => some [⟨"T", "A", "v1", 2⟩]) none
    0 0 0 10 ["x"] ⟨[], [], 0, 0⟩ rfl rfl (Or.inl (by decide))
    (by norm_num [CACHE_TTL])

/-- Counterexample for C10: with an already-expired local-cache entry under
the fingerprint of the request, the fallback-served call does change the
process-local cache — the lookup lazily evicts the expired entry — so the
caches are not literally "left unchanged". -/
theorem C10_counterexample :
    ((combine_suggestions false (fun _ => none)
        (some [⟨"t", "c", "v", some 200000000⟩]) 0 4000 ["a"]
        ⟨[("a", (0, [⟨"x", "y", "z", 2⟩]))], [], 0, 0⟩).2).localCache
      ≠ [("a", (0, [⟨"x", "y", "z", 2⟩]))]
    ∧ (combine_suggestions false (fun _ => none)
        (some [⟨"t", "c", "v", some 200000000⟩]) 0 4000 ["a"]
        ⟨[("a", (0, [⟨"x", "y", "z", 2⟩]))], [], 0, 0⟩).1
      = [⟨"t", "c", "v", 1⟩] := by
  have hkey : cache_key ["a"] = "a" := by decide
  have h2 : cache_get 4000
      ([("a", (0, [⟨"x", "y", "z", 2⟩]))] : LocalCache) (cache_key ["a"])
      = (none, []) := by
    rw [hkey]
    rw [cache_get_cons_expired 4000 0 [] "a" [⟨"x", "y", "z", 2⟩]
      (by norm_num [CACHE_TTL])]
    decide
  have hr1 : (if false then lget
      (SvcState.mk [("a", (0, [⟨"x", "y", "z", 2⟩]))] [] 0 0).redisCache
      (cache_key ["a"]) else none) = none := rfl
  have hm1 : all_suggestions (fun _ => none) ["a"] = [] := rfl
  have hf1 : get_popular_song_fallback
      (some [⟨"t", "c", "v", some 200000000⟩]) 0
      = some (⟨"t", "c", "v", 1⟩ :: []) := by decide
  rw [combine_miss hr1 h2, run_pipeline_fallback_eq hm1 hf1]
  exact ⟨by decide, rfl⟩

/-- Claim C10 as amended: when the primary pipeline yields no candidates
and the fallback produces a result, `combine_suggestions` returns the
fallback list and writes nothing to either cache tier: the distributed
cache is unchanged, the process-local cache is unchanged except possibly
for the lazy eviction of an already-expired entry under the requested
fingerprint, and afterwards no entry exists under that fingerprint — so a
fallback-served response is never served from cache on a later identical
request. -/
theorem C10_fallback_no_cache_write_amended (redisOn : Bool)
    (provider : String → Option (List Sug)) (ff : Option (List FItem))
    (pick : Nat) (now : ℚ) (names : List String) (st : SvcState)
    (f : Sug) (fs : List Sug)
    (hr : (if redisOn then lget st.redisCache (cache_key names) else none)
          = none)
    (hl : (cache_get now st.localCache (cache_key names)).1 = none)
    (hm : all_suggestions provider names = [])
    (hf : get_popular_song_fallback ff pick = some (f :: fs)) :
    (combine_suggestions redisOn provider ff pick now names st).1 = f :: fs
    ∧ (combine_suggestions redisOn provider ff pick now names st).2.redisCache
        = st.redisCache
    ∧ ((combine_suggestions redisOn provider ff pick now names st).2.localCache
          = st.localCache
        ∨ (combine_suggestions redisOn provider ff pick now names
            st).2.localCache = lerase st.localCache (cache_key names))
    ∧ lget (combine_suggestions redisOn provider ff pick now names
        st).2.localCache (cache_key names) = none := by
  rcases hp : cache_get now st.localCache (cache_key names) with ⟨o, c1⟩
  have ho : o = none := by
    have h0 := hl
    rw [hp] at h0
    exact h0
  subst ho
  rw [combine_miss hr hp, run_pipeline_fallback_eq hm hf]
  refine ⟨rfl, rfl, ?_, ?_⟩
  · have h3 := cache_get_snd_cases now st.localCache (cache_key names)
    rw [hp] at h3
    exact h3
  · have h4 := cache_get_fst_none_lget hl
    rw [hp] at h4
    exact h4

/-- Witness for C10 (amended): empty caches, providers all Empty, one-item
catalog. -/
theorem C10_fallback_no_cache_write_amended_witness :
    (combine_suggestions false (fun _ => none)
        (some [⟨"t", "c", "v", some 200000000⟩]) 0 0 ["a"]
        ⟨[], [], 0, 0⟩).1 = fallbackSug ⟨"t", "c", "v", some 200000000⟩ :: []
    ∧ (combine_suggestions false (fun _ => none)
        (some [⟨"t", "c", "v", some 200000000⟩]) 0 0 ["a"]
        ⟨[], [], 0, 0⟩).2.redisCache = ([] : RedisCache)
    ∧ ((combine_suggestions false (fun _ => none)
        (some [⟨"t", "c", "v", some 200000000⟩]) 0 0 ["a"]
        ⟨[], [], 0, 0⟩).2.localCache = ([] : LocalCache)
      ∨ (combine_suggestions false (fun _ => none)
        (some [⟨"t", "c", "v", some 200000000⟩]) 0 0 ["a"]
        ⟨[], [], 0, 0⟩).2.localCache = lerase ([] : LocalCache) (cache_key ["a"]))
    ∧ lget (combine_suggestions false (fun _ => none)
        (some [⟨"t", "c", "v", some 200000000⟩]) 0 0 ["a"]
        ⟨[], [], 0, 0⟩).2.localCache (cache_key ["a"]) = none :=
  C10_fallback_no_cache_write_amended false (fun _ => none)
    (some [⟨"t", "c", "v", some 200000000⟩]) 0 0 ["a"] ⟨[], [], 0, 0⟩
    (fallbackSug ⟨"t", "c", "v", some 200000000⟩) [] rfl rfl rfl (by decide)

end SongSuggest
